import Mathlib

/-!
# Verification of the CLIFileExplorer tree flattener and navigation loop

Shallow embedding of `src/ws.py` (a curses-based file explorer).

## Modelling conventions

* An absolute, normalized filesystem path is modelled as its list of
  components (`List String`): the POSIX root `/` is `[]`, and `/r/dir2` is
  `["r", "dir2"]`.  Under this bijection `os.path.join(p, e)` (for an entry
  name `e` as returned by `os.listdir`, which contains no separator) appends
  one component, `os.path.dirname` drops the last component (and is the
  identity exactly on the root, matching `os.path.dirname("/") == "/"`), and
  `os.path.basename` returns the last component (`""` on the root).
* The filesystem snapshot is a structure `FS` giving `os.listdir` (with
  `none` standing for `PermissionError`; per the spec all other OS errors are
  fatal and out of scope) and `os.path.isdir` (total, never raising).
* Python's `sorted` is a stable sort; a stable sort w.r.t. a fixed total
  preorder is unique, so `List.insertionSort` (also stable) computes exactly
  the list `sorted(..., key=lambda x: (not x[1], x[0].lower()))` does.
* `str.lower()` is modelled by mapping `Char.toLower` over the characters
  (this coincides with Python on ASCII names).
* The recursion in `flatten_tree.recurse` only descends into paths that are
  members of the finite set `expanded`, along strictly lengthening paths, so
  it terminates; it is embedded with an explicit fuel argument, and
  `recurse_fuel_irrel` below proves the result is the same for every
  sufficient fuel, so `flatten_tree` (which passes `expanded.card + 1`, always
  sufficient) is a faithful embedding of the unbounded Python recursion.
-/

/-- `FOLDER_ICON` from `src/ws.py` line 9. -/
def FOLDER_ICON : String := "📁"

/-- `FILE_ICON` from `src/ws.py` line 10. -/
def FILE_ICON : String := "📄"

/-- `PLUS_ICON` from `src/ws.py` line 11. -/
def PLUS_ICON : String := "+"

/-- `NO_ACCESS_ICON` from `src/ws.py` line 12. -/
def NO_ACCESS_ICON : String := "Θ"

/-- `os.path.join(p, e)` for an entry name `e` without separators. -/
def pyJoin (p : List String) (e : String) : List String := p ++ [e]

/-- `os.path.dirname` on a normalized absolute path. -/
def pyDirname (p : List String) : List String := p.dropLast

/-- `os.path.basename` on a normalized absolute path. -/
def pyBasename (p : List String) : String := p.getLast?.getD ""

/-- The filesystem snapshot seen through the `os` calls `src/ws.py` makes:
`listdir p = none` models `os.listdir` raising `PermissionError`. -/
structure FS where
  listdir : List String → Option (List String)
  isdir : List String → Bool

/-- Python `str.lower()` (exact on ASCII, where the repository's markers and
the scenarios of the spec live): lower-case every character. -/
def pyLower (s : String) : String := ⟨s.data.map Char.toLower⟩

/-- Lexicographic `≤` on strings by Unicode code point, as Python compares
the second components of the sort keys in `src/ws.py` line 55. -/
def strLeB : List Char → List Char → Bool
  | [], _ => true
  | _ :: _, [] => false
  | a :: as, b :: bs =>
    if a.toNat < b.toNat then true
    else if b.toNat < a.toNat then false
    else strLeB as bs

/-- The total preorder induced by the sort key
`lambda x: (not x[1], x[0].lower())` of `src/ws.py` line 55: tuple order on
(`not is_dir`, lower-cased name), i.e. directories before files, then
case-insensitive name order. -/
def childLE (a b : String × Bool) : Bool :=
  if a.2 = b.2 then strLeB (pyLower a.1).data (pyLower b.1).data else a.2

/-- `childLE` as a relation, for `List.insertionSort`. -/
def childRel (a b : String × Bool) : Prop := childLE a b = true

instance : DecidableRel childRel :=
  fun a b => inferInstanceAs (Decidable (childLE a b = true))

theorem strLeB_cons_iff (a b : Char) (as bs : List Char) :
    strLeB (a :: as) (b :: bs) = true ↔
      a.toNat < b.toNat ∨ (a.toNat = b.toNat ∧ strLeB as bs = true) := by
  simp only [strLeB]
  split_ifs with h1 h2
  · simp [h1]
  · constructor
    · intro h; simp at h
    · rintro (h | ⟨h, _⟩) <;> omega
  · have h : a.toNat = b.toNat := by omega
    simp [h, Nat.lt_irrefl]

theorem strLeB_total : ∀ x y : List Char, strLeB x y = true ∨ strLeB y x = true := by
  intro x
  induction x with
  | nil => intro y; exact Or.inl rfl
  | cons a as ih =>
    intro y
    cases y with
    | nil => exact Or.inr rfl
    | cons b bs =>
      rcases Nat.lt_trichotomy a.toNat b.toNat with h | h | h
      · exact Or.inl ((strLeB_cons_iff a b as bs).mpr (Or.inl h))
      · rcases ih bs with hr | hr
        · exact Or.inl ((strLeB_cons_iff a b as bs).mpr (Or.inr ⟨h, hr⟩))
        · exact Or.inr ((strLeB_cons_iff b a bs as).mpr (Or.inr ⟨h.symm, hr⟩))
      · exact Or.inr ((strLeB_cons_iff b a bs as).mpr (Or.inl h))

theorem strLeB_trans :
    ∀ x y z : List Char, strLeB x y = true → strLeB y z = true → strLeB x z = true := by
  intro x
  induction x with
  | nil => intro y z _ _; rfl
  | cons a as ih =>
    intro y z hxy hyz
    cases y with
    | nil => simp [strLeB] at hxy
    | cons b bs =>
      cases z with
      | nil => simp [strLeB] at hyz
      | cons c cs =>
        rw [strLeB_cons_iff] at hxy hyz ⊢
        rcases hxy with h1 | ⟨h1, h1r⟩
        · rcases hyz with h2 | ⟨h2, _⟩
          · exact Or.inl (by omega)
          · exact Or.inl (by omega)
        · rcases hyz with h2 | ⟨h2, h2r⟩
          · exact Or.inl (by omega)
          · exact Or.inr ⟨by omega, ih bs cs h1r h2r⟩

instance : IsTotal (String × Bool) childRel where
  total a b := by
    unfold childRel childLE
    by_cases h : a.2 = b.2
    · rw [if_pos h, if_pos h.symm]
      exact strLeB_total _ _
    · rw [if_neg h, if_neg (Ne.symm h)]
      cases a2 : a.2 <;> cases b2 : b.2 <;> simp_all

instance : IsTrans (String × Bool) childRel where
  trans a b c hab hbc := by
    unfold childRel childLE at hab hbc ⊢
    by_cases h1 : a.2 = b.2
    · by_cases h2 : b.2 = c.2
      · rw [if_pos h1] at hab
        rw [if_pos h2] at hbc
        rw [if_pos (h1.trans h2)]
        exact strLeB_trans _ _ _ hab hbc
      · rw [if_pos h1] at hab
        rw [if_neg h2] at hbc
        have hac : ¬a.2 = c.2 := fun hh => h2 (h1.symm.trans hh)
        rw [if_neg hac, h1]
        exact hbc
    · rw [if_neg h1] at hab
      by_cases h2 : b.2 = c.2
      · have hac : ¬a.2 = c.2 := fun hh => h1 (hh.trans h2.symm)
        rw [if_neg hac]
        exact hab
      · rw [if_neg h2] at hbc
        exact absurd (hab.trans hbc.symm) h1

/-- `src/ws.py` lines 53-57: the sorted child list of a directory, with the
`PermissionError` handler that degrades a denied listing to no children. -/
def childrenOf (fs : FS) (p : List String) : List (String × Bool) :=
  match fs.listdir p with
  | none => []
  | some es => List.insertionSort childRel (es.map (fun e => (e, fs.isdir (pyJoin p e))))

/-- One row of the flattened sequence: the tuple
`(display_name, full_path, is_dir, depth)` built in `flatten_tree.recurse`. -/
structure Row where
  label : String
  path : List String
  isDir : Bool
  depth : Nat
deriving DecidableEq

/-- `src/ws.py` lines 62-68: the display name of one child entry.  The
Python `try` wraps the condition of line 63, whose `and` short-circuits:
`os.listdir(full_path)` (and hence `PermissionError`) is only reached when
`is_dir` holds and `full_path` is not in `expanded`. -/
def childLabel (fs : FS) (e : Finset (List String)) (pre conn entry : String)
    (full : List String) (isDir : Bool) : String :=
  if isDir = true ∧ full ∉ e then
    match fs.listdir full with
    | none => pre ++ conn ++ NO_ACCESS_ICON ++ FOLDER_ICON ++ " " ++ entry
    | some l =>
      if l = [] then pre ++ conn ++ " " ++ FOLDER_ICON ++ " " ++ entry
      else pre ++ conn ++ PLUS_ICON ++ FOLDER_ICON ++ " " ++ entry
  else
    pre ++ conn ++ " " ++ (if isDir = true then FOLDER_ICON else FILE_ICON) ++ " " ++ entry

/-- `src/ws.py` lines 58-72: the rows contributed by the child at index
`ic.1` of the enumerated sorted child list (its own row, followed by its
recursively flattened children when it is an expanded directory).  `rec` is
the recursive call of `flatten_tree.recurse` at depth+1. -/
def childEntryRows (fs : FS) (e : Finset (List String))
    (rec : List String → Nat → String → List Row)
    (p : List String) (depth : Nat) (pre : String) (numChildren : Nat)
    (ic : Nat × String × Bool) : List Row :=
  ⟨childLabel fs e pre (if ic.1 = numChildren - 1 then "└─" else "├─") ic.2.1
      (pyJoin p ic.2.1) ic.2.2,
    pyJoin p ic.2.1, ic.2.2, depth⟩ ::
    (if ic.2.2 = true ∧ pyJoin p ic.2.1 ∈ e then
      rec (pyJoin p ic.2.1) (depth + 1)
        (pre ++ (if ic.1 = numChildren - 1 then "   " else "│  "))
    else [])

/-- `flatten_tree.recurse` of `src/ws.py` lines 47-72, with an explicit fuel
argument (see the module doc; `recurse_fuel_irrel` shows any sufficient fuel
gives the same list).  At depth 0 it first emits the synthetic `..` row when
the root has a distinct parent (lines 48-52). -/
def recurse (fs : FS) (e : Finset (List String)) :
    Nat → List String → Nat → String → List Row
  | 0, _, _, _ => []
  | fuel + 1, p, depth, pre =>
    (if depth = 0 ∧ pyDirname p ≠ p then
      [⟨pre ++ "├─ " ++ FOLDER_ICON ++ " ..", pyDirname p, true, depth⟩]
    else []) ++
    (childrenOf fs p).enum.flatMap
      (childEntryRows fs e (recurse fs e fuel) p depth pre (childrenOf fs p).length)

/-- `flatten_tree(path, expanded)` of `src/ws.py` lines 35-74. -/
def flatten_tree (fs : FS) (path : List String) (expanded : Finset (List String)) :
    List Row :=
  recurse fs expanded (expanded.card + 1) path 0 ""

/-! ## The navigation loop of `main` (`src/ws.py` lines 114-176) -/

/-- `expanded_dirs.add` / `expanded_dirs.remove` as dispatched by the
right-arrow handler, `src/ws.py` lines 155-158: remove if present, else
add. -/
def toggle (p : List String) (s : Finset (List String)) : Finset (List String) :=
  if p ∈ s then s.erase p else insert p s

/-- The discrete input events the key dispatch of `main` distinguishes;
`other` is any key matching no branch. -/
inductive Key where
  | up
  | down
  | right
  | left
  | enter
  | quit
  | other
deriving DecidableEq

/-- The mutable state of `main`'s loop: current root `path`, the global
`expanded_dirs`, the cached `flat_items`, `selected` and `offset` (Python
ints, so `Int`: the loop can drive them to `-1`). -/
structure NavState where
  path : List String
  expanded : Finset (List String)
  flatItems : List Row
  selected : Int
  offset : Int
deriving DecidableEq

/-- Python list indexing `l[i]` for an `int` index: non-negative indexes
from the front, negative indexes from the back, and `none` is an uncaught
`IndexError` (which kills the process). -/
def pyIndex (l : List Row) (i : Int) : Option Row :=
  if 0 ≤ i ∧ i < (l.length : Int) then l.get? i.toNat
  else if -(l.length : Int) ≤ i ∧ i < 0 then l.get? ((l.length : Int) + i).toNat
  else none

/-- `src/ws.py` lines 136-144: the clamp performed at the top of each loop
iteration, before rendering — pull `selected` down to `len(flat_items) - 1`
(note: to `-1` when the list is empty), then adjust `offset` for
scrolling. -/
def clampStep (pageSize : Int) (s : NavState) : NavState :=
  let maxIdx : Int := (s.flatItems.length : Int) - 1
  let sel : Int := if maxIdx < s.selected then maxIdx else s.selected
  let off : Int :=
    if sel < s.offset then sel
    else if s.offset + pageSize ≤ sel then sel - pageSize + 1
    else s.offset
  { s with selected := sel, offset := off }

/-- `src/ws.py` lines 148-176: the key dispatch of one loop iteration.
`none` models the process dying of an uncaught `IndexError` from
`flat_items[selected]`. -/
def dispatch (fs : FS) (k : Key) (s : NavState) : Option NavState :=
  match k with
  | Key.up =>
    some (if 0 < s.selected then { s with selected := s.selected - 1 } else s)
  | Key.down =>
    some (if s.selected < (s.flatItems.length : Int) - 1 then
      { s with selected := s.selected + 1 } else s)
  | Key.right =>
    match pyIndex s.flatItems s.selected with
    | none => none
    | some row =>
      some (if row.isDir = true then
        { s with expanded := toggle row.path s.expanded,
                 flatItems := flatten_tree fs s.path (toggle row.path s.expanded) }
      else s)
  | Key.left =>
    match pyIndex s.flatItems s.selected with
    | none => none
    | some row =>
      some (if row.isDir = true ∧ row.path ∈ s.expanded then
        { s with expanded := s.expanded.erase row.path,
                 flatItems := flatten_tree fs s.path (s.expanded.erase row.path) }
      else s)
  | Key.enter =>
    match pyIndex s.flatItems s.selected with
    | none => none
    | some row =>
      if pyBasename row.path = ".." then
        some { path := pyDirname s.path, expanded := s.expanded,
               flatItems := flatten_tree fs (pyDirname s.path) s.expanded,
               selected := 0, offset := 0 }
      else if row.isDir = true then
        some { path := row.path, expanded := ∅,
               flatItems := flatten_tree fs row.path ∅,
               selected := 0, offset := 0 }
      else
        some { s with flatItems := flatten_tree fs s.path s.expanded,
                      selected := 0, offset := 0 }
  | Key.quit => some s
  | Key.other => some s

/-- `src/ws.py` lines 127-131: the state on entering the loop (the global
`expanded_dirs` is the empty set at startup; `start` stands for
`os.path.abspath(start_path)`). -/
def initState (fs : FS) (start : List String) : NavState :=
  { path := start, expanded := ∅, flatItems := flatten_tree fs start ∅,
    selected := 0, offset := 0 }

/-- One full loop iteration: the clamp at the loop top (with
`page_size = h - 2`, `src/ws.py` line 135), then the dispatch of one key. -/
def runStep (fs : FS) (s : NavState) (hk : Int × Key) : Option NavState :=
  dispatch fs hk.2 (clampStep (hk.1 - 2) s)

/-- `src/ws.py` lines 178-179: the script calls `curses.wrapper(main,
os.getcwd())`; `sys.argv` is never consulted anywhere in the file, so the
start path is the current working directory whatever the command line
holds. -/
def program_start_path (cwd : List String) (_argv : List String) : List String := cwd

/-- Process exit status of a run of the loop: a normal return from `main`
(quit via `q`/ESC, `src/ws.py` lines 175-176) ends the script with exit
code 0; an uncaught exception (the `none` outcome) is a nonzero exit. -/
def exitCodeOfRun : Option NavState → Nat
  | some _ => 0
  | none => 1

/-! ## Concrete filesystem snapshots used as test inputs -/

/-- The scenario filesystem of the spec (§8): root `/r` containing the empty
directory `dir1`, the directory `dir2` with single file `c.txt`, and files
`a.txt` and `B.txt`; `os.listdir` returns them deliberately unsorted. -/
def fsC8 : FS where
  listdir p :=
    if p = ["r"] then some ["a.txt", "dir2", "B.txt", "dir1"]
    else if p = ["r", "dir2"] then some ["c.txt"]
    else some []
  isdir p := p == ["r", "dir1"] || p == ["r", "dir2"]

/-- A root `/r` with a single subdirectory `locked` whose listing raises
`PermissionError`. -/
def fsC1 : FS where
  listdir p :=
    if p = ["r"] then some ["locked"]
    else if p = ["r", "locked"] then none
    else some []
  isdir p := p == ["r", "locked"]

/-- A filesystem whose root `/` has an empty listing, so flattening the
root `[]` (which has no distinct parent) yields no rows at all. -/
def fsEmptyRoot : FS where
  listdir _ := some []
  isdir _ := false

/-! ## Fuel adequacy for `recurse`

The Python recursion descends only into paths that are members of
`expanded`, and each descent lengthens the path by one component, so the
number of members of `expanded` strictly longer than the current path
bounds the remaining recursion depth.  `expanded.card + 1` therefore always
suffices, and the lemmas below show the fuel value is irrelevant above the
bound. -/

/-- Members of `e` strictly longer than `p`: an upper bound on the
recursion depth below `p`. -/
def expFuel (e : Finset (List String)) (p : List String) : Nat :=
  (e.filter (fun q => p.length < q.length)).card

theorem expFuel_le_card (e : Finset (List String)) (p : List String) :
    expFuel e p ≤ e.card :=
  Finset.card_filter_le e _

theorem expFuel_child (e : Finset (List String)) (p : List String) (entry : String)
    (h : pyJoin p entry ∈ e) : expFuel e (pyJoin p entry) < expFuel e p := by
  apply Finset.card_lt_card
  rw [Finset.ssubset_iff_of_subset]
  · refine ⟨pyJoin p entry, ?_, ?_⟩
    · rw [Finset.mem_filter]
      exact ⟨h, by simp [pyJoin]⟩
    · rw [Finset.mem_filter]
      rintro ⟨-, hlen⟩
      exact lt_irrefl _ hlen
  · intro q hq
    rw [Finset.mem_filter] at hq ⊢
    refine ⟨hq.1, ?_⟩
    have : (pyJoin p entry).length = p.length + 1 := by simp [pyJoin]
    omega

/-- Unfolding lemma for `recurse` at positive fuel. -/
theorem recurse_succ (fs : FS) (e : Finset (List String)) (fuel : Nat)
    (p : List String) (depth : Nat) (pre : String) :
    recurse fs e (fuel + 1) p depth pre =
      (if depth = 0 ∧ pyDirname p ≠ p then
        [⟨pre ++ "├─ " ++ FOLDER_ICON ++ " ..", pyDirname p, true, depth⟩]
      else []) ++
      (childrenOf fs p).enum.flatMap
        (childEntryRows fs e (recurse fs e fuel) p depth pre (childrenOf fs p).length) :=
  rfl

theorem flatMap_congr_mem {α β : Type} (l : List α) (f g : α → List β)
    (h : ∀ x ∈ l, f x = g x) : l.flatMap f = l.flatMap g := by
  induction l with
  | nil => rfl
  | cons a t ih =>
    rw [List.flatMap_cons, List.flatMap_cons, h a (by simp),
      ih (fun x hx => h x (by simp [hx]))]

theorem recurse_fuel_succ (fs : FS) (e : Finset (List String)) :
    ∀ fuel (p : List String) (depth : Nat) (pre : String), expFuel e p < fuel →
      recurse fs e fuel p depth pre = recurse fs e (fuel + 1) p depth pre := by
  intro fuel
  induction fuel with
  | zero => intro p depth pre h; omega
  | succ n ih =>
    intro p depth pre h
    rw [recurse_succ, recurse_succ]
    congr 1
    apply flatMap_congr_mem
    intro ic _
    unfold childEntryRows
    congr 1
    split
    · next hcond =>
      exact ih (pyJoin p ic.2.1) (depth + 1) _
        (by
          have h1 := expFuel_child e p ic.2.1 hcond.2
          omega)
    · rfl

theorem childLabel_congr (fs : FS) (e₁ e₂ : Finset (List String))
    (pre conn entry : String) (full : List String) (isDir : Bool)
    (hmem : full ∈ e₁ ↔ full ∈ e₂) :
    childLabel fs e₁ pre conn entry full isDir =
      childLabel fs e₂ pre conn entry full isDir := by
  unfold childLabel
  by_cases hd : isDir = true ∧ full ∉ e₁
  · rw [if_pos hd, if_pos ⟨hd.1, fun hx => hd.2 (hmem.mpr hx)⟩]
  · rw [if_neg hd, if_neg (fun hx : isDir = true ∧ full ∉ e₂ =>
      hd ⟨hx.1, fun hy => hx.2 (hmem.mp hy)⟩)]

theorem recurse_fuel_add (fs : FS) (e : Finset (List String))
    (k fuel : Nat) (p : List String) (depth : Nat) (pre : String)
    (h : expFuel e p < fuel) :
    recurse fs e fuel p depth pre = recurse fs e (fuel + k) p depth pre := by
  induction k with
  | zero => rfl
  | succ m ih =>
    rw [ih, ← Nat.add_assoc]
    exact recurse_fuel_succ fs e (fuel + m) p depth pre (by omega)

/-- The result of `recurse` does not depend on the fuel once the fuel
exceeds the recursion-depth bound `expFuel`: the embedding with any
sufficient fuel computes the Python function. -/
theorem recurse_fuel_irrel (fs : FS) (e : Finset (List String))
    (fuel₁ fuel₂ : Nat) (p : List String) (depth : Nat) (pre : String)
    (h₁ : expFuel e p < fuel₁) (h₂ : expFuel e p < fuel₂) :
    recurse fs e fuel₁ p depth pre = recurse fs e fuel₂ p depth pre := by
  rcases Nat.le_total fuel₁ fuel₂ with hle | hle
  · obtain ⟨k, rfl⟩ := Nat.exists_eq_add_of_le hle
    exact recurse_fuel_add fs e k fuel₁ p depth pre h₁
  · obtain ⟨k, rfl⟩ := Nat.exists_eq_add_of_le hle
    exact (recurse_fuel_add fs e k fuel₂ p depth pre h₂).symm

/-- During flattening below `p`, only membership of paths strictly longer
than `p` is ever tested, so two expansion sets agreeing there flatten
identically below `p`. -/
theorem recurse_congr_mem (fs : FS) (e₁ e₂ : Finset (List String)) :
    ∀ fuel (p : List String) (depth : Nat) (pre : String),
      (∀ q : List String, p.length < q.length → (q ∈ e₁ ↔ q ∈ e₂)) →
      recurse fs e₁ fuel p depth pre = recurse fs e₂ fuel p depth pre := by
  intro fuel
  induction fuel with
  | zero => intro p depth pre _; rfl
  | succ n ih =>
    intro p depth pre hagree
    rw [recurse_succ, recurse_succ]
    congr 1
    apply flatMap_congr_mem
    intro ic _
    have hlen : p.length < (pyJoin p ic.2.1).length := by simp [pyJoin]
    have hmem : pyJoin p ic.2.1 ∈ e₁ ↔ pyJoin p ic.2.1 ∈ e₂ := hagree _ hlen
    unfold childEntryRows
    congr 1
    · rw [childLabel_congr fs e₁ e₂ pre _ ic.2.1 (pyJoin p ic.2.1) ic.2.2 hmem]
    · by_cases hrec : ic.2.2 = true ∧ pyJoin p ic.2.1 ∈ e₁
      · have hrec2 : ic.2.2 = true ∧ pyJoin p ic.2.1 ∈ e₂ := ⟨hrec.1, hmem.mp hrec.2⟩
        rw [if_pos hrec, if_pos hrec2]
        apply ih
        intro q hq
        exact hagree q (by omega)
      · have hrec2 : ¬(ic.2.2 = true ∧ pyJoin p ic.2.1 ∈ e₂) := fun hx =>
          hrec ⟨hx.1, hmem.mpr hx.2⟩
        rw [if_neg hrec, if_neg hrec2]

/-! ## Helper lemmas about `toggle`, `pyDirname` and the head of the
flattened sequence -/

theorem toggle_toggle (p : List String) (s : Finset (List String)) :
    toggle p (toggle p s) = s := by
  unfold toggle
  by_cases h : p ∈ s
  · rw [if_pos h, if_neg (Finset.not_mem_erase p s)]
    exact Finset.insert_erase h
  · rw [if_neg h, if_pos (Finset.mem_insert_self p s)]
    exact Finset.erase_insert h

theorem mem_toggle_of_ne {q p : List String} (s : Finset (List String))
    (h : q ≠ p) : q ∈ toggle p s ↔ q ∈ s := by
  unfold toggle
  by_cases hp : p ∈ s
  · rw [if_pos hp, Finset.mem_erase]
    exact ⟨fun hx => hx.2, fun hx => ⟨h, hx⟩⟩
  · rw [if_neg hp, Finset.mem_insert]
    exact ⟨fun hx => hx.resolve_left h, Or.inr⟩

theorem pyDirname_ne_self {p : List String} (hp : p ≠ []) : pyDirname p ≠ p := by
  intro h
  have hlen : (pyDirname p).length = p.length - 1 := List.length_dropLast p
  have hpos : 0 < p.length := List.length_pos.mpr hp
  rw [h] at hlen
  omega

theorem pyDirname_length_le (p : List String) : (pyDirname p).length ≤ p.length := by
  have := List.length_dropLast p
  unfold pyDirname
  omega

/-- When the root has a distinct parent, the flattened sequence starts with
the synthetic `..` row, whose `path` is the parent directory. -/
theorem flatten_tree_head (fs : FS) (e : Finset (List String)) (p : List String)
    (hp : p ≠ []) :
    ∃ rest, flatten_tree fs p e =
      ⟨"" ++ "├─ " ++ FOLDER_ICON ++ " ..", pyDirname p, true, 0⟩ ::
        rest := by
  unfold flatten_tree
  rw [recurse_succ, if_pos ⟨rfl, pyDirname_ne_self hp⟩]
  exact ⟨_, rfl⟩

/-- Toggling the parent directory of the current root in the expansion set
never changes the flattened sequence of that root: only strictly longer
paths than the root are ever tested for membership. -/
theorem flatten_toggle_dirname (fs : FS) (p : List String)
    (e : Finset (List String)) :
    flatten_tree fs p (toggle (pyDirname p) e) = flatten_tree fs p e := by
  have hagree : ∀ q : List String, p.length < q.length →
      (q ∈ toggle (pyDirname p) e ↔ q ∈ e) := by
    intro q hq
    refine mem_toggle_of_ne e (fun hqe => ?_)
    have := pyDirname_length_le p
    rw [hqe] at hq
    omega
  unfold flatten_tree
  calc recurse fs (toggle (pyDirname p) e) ((toggle (pyDirname p) e).card + 1) p 0 ""
      = recurse fs (toggle (pyDirname p) e)
          ((toggle (pyDirname p) e).card + e.card + 1) p 0 "" := by
        apply recurse_fuel_irrel
        · have := expFuel_le_card (toggle (pyDirname p) e) p
          omega
        · have := expFuel_le_card (toggle (pyDirname p) e) p
          omega
    _ = recurse fs e ((toggle (pyDirname p) e).card + e.card + 1) p 0 "" := by
        apply recurse_congr_mem
        exact hagree
    _ = recurse fs e (e.card + 1) p 0 "" := by
        apply recurse_fuel_irrel
        · have := expFuel_le_card e p
          omega
        · have := expFuel_le_card e p
          omega

theorem pyIndex_cons_zero (r : Row) (rest : List Row) :
    pyIndex (r :: rest) 0 = some r := by
  unfold pyIndex
  rw [if_pos (by constructor <;> simp)]
  rfl

/-! ## C4 — determinism of flattening -/

/-- C4: two calls to `flatten_tree` against an identical filesystem
snapshot (same `os.listdir` answers including their order, same
`os.path.isdir` answers) and equal expansion sets produce identical
sequences — same rows, same labels, same order. -/
theorem C4_determinism (fs₁ fs₂ : FS) (root : List String)
    (e₁ e₂ : Finset (List String))
    (hl : ∀ p, fs₁.listdir p = fs₂.listdir p)
    (hd : ∀ p, fs₁.isdir p = fs₂.isdir p)
    (he : e₁ = e₂) :
    flatten_tree fs₁ root e₁ = flatten_tree fs₂ root e₂ := by
  have hfs : fs₁ = fs₂ := by
    cases fs₁
    cases fs₂
    simp only [FS.mk.injEq]
    exact ⟨funext hl, funext hd⟩
  rw [hfs, he]

/-- Witness for C4 at a concrete snapshot and expansion set. -/
theorem C4_witness :
    flatten_tree fsC8 ["r"] {["r", "dir2"]} = flatten_tree fsC8 ["r"] {["r", "dir2"]} :=
  C4_determinism fsC8 fsC8 ["r"] {["r", "dir2"]} {["r", "dir2"]}
    (fun _ => rfl) (fun _ => rfl) rfl

/-! ## C6 — sort invariant of each sibling group -/

/-- C6: whatever order `os.listdir` returns entries in, every sibling group
of the flattened output (the sorted child list computed at each directory,
`src/ws.py` lines 54-55) lists all directories before all files, and is in
case-insensitive lexicographic order by name within each of the two
groups: every pair of entries in listing order is either (directory, file),
or of the same kind with lower-cased names in lexicographic order. -/
theorem C6_sort_invariant (fs : FS) (p : List String) :
    List.Pairwise (fun a b : String × Bool =>
      (a.2 = true ∧ b.2 = false) ∨
      (a.2 = b.2 ∧ strLeB (pyLower a.1).data (pyLower b.1).data = true))
      (childrenOf fs p) := by
  unfold childrenOf
  cases fs.listdir p with
  | none => exact List.Pairwise.nil
  | some es =>
    refine (List.sorted_insertionSort childRel _).imp ?_
    intro a b hab
    unfold childRel childLE at hab
    by_cases h : a.2 = b.2
    · rw [if_pos h] at hab
      exact Or.inr ⟨h, hab⟩
    · rw [if_neg h] at hab
      refine Or.inl ⟨hab, ?_⟩
      cases hb : b.2
      · rfl
      · exact absurd (hab.trans hb.symm) h

/-! ## C7 — double toggle restores membership and the flattened sequence -/

/-- C7: toggling a path twice in succession restores the original
membership of the expansion set, and flattening after the double toggle
(filesystem unchanged) returns the same sequence as before. -/
theorem C7_toggle_involution (fs : FS) (root p : List String)
    (s : Finset (List String)) :
    (∀ q : List String, q ∈ toggle p (toggle p s) ↔ q ∈ s) ∧
    flatten_tree fs root (toggle p (toggle p s)) = flatten_tree fs root s := by
  rw [toggle_toggle]
  exact ⟨fun _ => Iff.rfl, rfl⟩

/-! ## C8 — the concrete scenario of spec §8 -/

/-- C8: on the scenario filesystem (root `/r` with empty directory `dir1`,
directory `dir2` holding only `c.txt`, files `a.txt` and `B.txt`), the
unexpanded flattening is exactly `..`, `dir1` (plain folder, no plus),
`dir2` (plus marker), `a.txt`, `B.txt`; expanding `dir2` adds exactly one
row, `c.txt`, immediately after `dir2`, at depth 1, with the corner
connector. -/
theorem C8_scenario :
    flatten_tree fsC8 ["r"] ∅ =
      [⟨"├─ 📁 ..", [], true, 0⟩,
        ⟨"├─ 📁 dir1", ["r", "dir1"], true, 0⟩,
        ⟨"├─+📁 dir2", ["r", "dir2"], true, 0⟩,
        ⟨"├─ 📄 a.txt", ["r", "a.txt"], false, 0⟩,
        ⟨"└─ 📄 B.txt", ["r", "B.txt"], false, 0⟩] ∧
    flatten_tree fsC8 ["r"] {["r", "dir2"]} =
      [⟨"├─ 📁 ..", [], true, 0⟩,
        ⟨"├─ 📁 dir1", ["r", "dir1"], true, 0⟩,
        ⟨"├─ 📁 dir2", ["r", "dir2"], true, 0⟩,
        ⟨"│  └─ 📄 c.txt", ["r", "dir2", "c.txt"], false, 1⟩,
        ⟨"├─ 📄 a.txt", ["r", "a.txt"], false, 0⟩,
        ⟨"└─ 📄 B.txt", ["r", "B.txt"], false, 0⟩] := by
  constructor <;> decide

/-! ## C1 — degradation of access-denied directories -/

/-- C1 (amended): how `flatten_tree` really treats a directory entry whose
listing raises `PermissionError`.  When its path is *not* in the expansion
set, the truthiness test `os.listdir(full_path)` runs, the error is caught,
the entry gets the no-access marker, and (not being expanded) it is not
recursed into — its contribution is exactly its own row.  When its path
*is* in the expansion set, the `and` of `src/ws.py` line 63 short-circuits
before `os.listdir`, so no `PermissionError` occurs and the entry gets the
*plain* folder marker (no no-access glyph); the recursion into it then
finds no children and contributes zero rows. -/
theorem C1_amended (fs : FS) (e : Finset (List String)) (p : List String)
    (entry pre conn : String)
    (hdenied : fs.listdir (pyJoin p entry) = none) :
    (pyJoin p entry ∉ e →
      childLabel fs e pre conn entry (pyJoin p entry) true =
        pre ++ conn ++ NO_ACCESS_ICON ++ FOLDER_ICON ++ " " ++ entry) ∧
    (pyJoin p entry ∉ e →
      ∀ (rec : List String → Nat → String → List Row) (depth numChildren idx : Nat),
        childEntryRows fs e rec p depth pre numChildren (idx, entry, true) =
          [⟨childLabel fs e pre (if idx = numChildren - 1 then "└─" else "├─") entry
              (pyJoin p entry) true, pyJoin p entry, true, depth⟩]) ∧
    (pyJoin p entry ∈ e →
      childLabel fs e pre conn entry (pyJoin p entry) true =
        pre ++ conn ++ " " ++ FOLDER_ICON ++ " " ++ entry) ∧
    (∀ (fuel depth : Nat) (pre2 : String), depth ≠ 0 →
      recurse fs e fuel (pyJoin p entry) depth pre2 = []) := by
  refine ⟨?_, ?_, ?_, ?_⟩
  · intro hmem
    unfold childLabel
    rw [if_pos ⟨rfl, hmem⟩, hdenied]
  · intro hmem rec depth numChildren idx
    unfold childEntryRows
    rw [if_neg (fun hx : true = true ∧ pyJoin p entry ∈ e => hmem hx.2)]
  · intro hmem
    unfold childLabel
    rw [if_neg (fun hx : true = true ∧ pyJoin p entry ∉ e => hx.2 hmem)]
    simp
  · intro fuel depth pre2 hdepth
    cases fuel with
    | zero => rfl
    | succ n =>
      rw [recurse_succ, if_neg (fun hx : depth = 0 ∧ _ => hdepth hx.1)]
      unfold childrenOf
      rw [hdenied]
      rfl

/-- C1 (counterexample): on `fsC1` the directory `locked` is access-denied
*and* a member of the expansion set, yet its row carries the plain folder
marker — the no-access glyph `Θ` appears nowhere in its label, contradicting
the claim that the no-access marker is shown even for members of
ExpansionState. -/
theorem C1_counterexample :
    fsC1.listdir ["r", "locked"] = none ∧
    ["r", "locked"] ∈ ({["r", "locked"]} : Finset (List String)) ∧
    flatten_tree fsC1 ["r"] {["r", "locked"]} =
      [⟨"├─ 📁 ..", [], true, 0⟩,
        ⟨"└─ 📁 locked", ["r", "locked"], true, 0⟩] ∧
    "└─ 📁 locked".data.contains 'Θ' = false := by decide

/-- Witness for C1 at a concrete input: the no-access label when the denied
directory is not expanded, the plain label and empty recursion when it is. -/
theorem C1_witness :
    childLabel fsC1 ∅ "" "└─" "locked" (pyJoin ["r"] "locked") true =
      "" ++ "└─" ++ NO_ACCESS_ICON ++ FOLDER_ICON ++ " " ++ "locked" ∧
    childLabel fsC1 {["r", "locked"]} "" "└─" "locked" (pyJoin ["r"] "locked") true =
      "" ++ "└─" ++ " " ++ FOLDER_ICON ++ " " ++ "locked" ∧
    recurse fsC1 {["r", "locked"]} 1 (pyJoin ["r"] "locked") 1 "" = [] :=
  ⟨(C1_amended fsC1 ∅ ["r"] "locked" "" "└─" (by decide)).1 (by decide),
    (C1_amended fsC1 {["r", "locked"]} ["r"] "locked" "" "└─" (by decide)).2.2.1 (by decide),
    (C1_amended fsC1 {["r", "locked"]} ["r"] "locked" "" "└─" (by decide)).2.2.2 1 1 ""
      (by decide)⟩

/-! ## C5 — Enter on the parent link -/

/-- C5: when the selected row is the synthetic parent link `..` (row 0 of a
flattening whose root has a distinct parent) and the root is a normalized
path (so the parent's basename is not the literal `..`), Enter sets the
root to the parent directory, clears the expansion set, recomputes the
flattened sequence for the new root, and resets `selected` and `offset`
to 0.  (In the source the branch taken is `elif is_dir:` — the
`basename == ".."` test is false because the stored path of the `..` row is
the parent itself — and that branch is the one that clears
`expanded_dirs`.) -/
theorem C5_enter_on_parent (fs : FS) (s : NavState)
    (hflat : s.flatItems = flatten_tree fs s.path s.expanded)
    (hroot : s.path ≠ [])
    (hsel : s.selected = 0)
    (hnorm : pyBasename (pyDirname s.path) ≠ "..") :
    dispatch fs Key.enter s =
      some { path := pyDirname s.path, expanded := ∅,
             flatItems := flatten_tree fs (pyDirname s.path) ∅,
             selected := 0, offset := 0 } := by
  obtain ⟨rest, hhead⟩ := flatten_tree_head fs s.expanded s.path hroot
  unfold dispatch
  rw [hsel, hflat, hhead, pyIndex_cons_zero]
  simp only
  rw [if_neg hnorm]
  simp

/-- Witness for C5: from the initial state on the scenario filesystem,
Enter on the selected `..` row ascends to the filesystem root `[]`. -/
theorem C5_witness :
    dispatch fsC8 Key.enter (initState fsC8 ["r"]) =
      some { path := pyDirname ["r"], expanded := ∅,
             flatItems := flatten_tree fsC8 (pyDirname ["r"]) ∅,
             selected := 0, offset := 0 } :=
  C5_enter_on_parent fsC8 (initState fsC8 ["r"]) rfl (by decide) rfl (by decide)

/-! ## C10 — right-arrow on the parent link -/

/-- C10: when the selected row is the parent link `..`, the right-arrow
handler toggles the parent directory's path in the expansion set (the row
is a directory row), but the flattened sequence it recomputes equals the
one from before the event: flattening the unchanged root never tests the
parent's path (every membership test is on a strictly longer path), so the
new member is observably inert.  The state change is exactly the toggled
expansion set. -/
theorem C10_right_on_parent (fs : FS) (s : NavState)
    (hflat : s.flatItems = flatten_tree fs s.path s.expanded)
    (hroot : s.path ≠ [])
    (hsel : s.selected = 0) :
    dispatch fs Key.right s =
      some { s with expanded := toggle (pyDirname s.path) s.expanded } := by
  obtain ⟨rest, hhead⟩ := flatten_tree_head fs s.expanded s.path hroot
  unfold dispatch
  rw [hsel, hflat, hhead, pyIndex_cons_zero]
  simp only
  rw [if_pos trivial, flatten_toggle_dirname, hhead]

/-- Witness for C10: from the initial state on the scenario filesystem,
right-arrow on the selected `..` row adds the parent `[]` to the expansion
set and leaves the flattened sequence (and everything else) unchanged. -/
theorem C10_witness :
    dispatch fsC8 Key.right (initState fsC8 ["r"]) =
      some { initState fsC8 ["r"] with
             expanded := toggle (pyDirname ["r"]) (initState fsC8 ["r"]).expanded } :=
  C10_right_on_parent fsC8 (initState fsC8 ["r"]) rfl (by decide) rfl

/-! ## C3 — Enter on a file row -/

/-- C3 (amended): Enter on a file row is *not* a full no-op.  The handler
falls through both the `..` and directory branches, so root, expansion set
and (by determinism of flattening) the flattened sequence are unchanged,
but lines 172-174 of `src/ws.py` run unconditionally for every Enter:
`selected` and `offset` are reset to 0. -/
theorem C3_amended (fs : FS) (s : NavState) (row : Row)
    (hflat : s.flatItems = flatten_tree fs s.path s.expanded)
    (hrow : pyIndex s.flatItems s.selected = some row)
    (hfile : row.isDir = false)
    (hnotdots : pyBasename row.path ≠ "..") :
    dispatch fs Key.enter s = some { s with selected := 0, offset := 0 } := by
  unfold dispatch
  rw [hrow]
  simp only
  rw [if_neg hnotdots, if_neg (by rw [hfile]; exact Bool.false_ne_true), ← hflat]

/-- A concrete state on the scenario filesystem in which the selected row
(index 3, `a.txt`) is a file. -/
def sC3 : NavState :=
  { path := ["r"], expanded := ∅, flatItems := flatten_tree fsC8 ["r"] ∅,
    selected := 3, offset := 0 }

/-- C3 (counterexample): processing Enter in `sC3` is not a no-op — the
selected index jumps from 3 back to 0 (root, expansion set and sequence do
stay unchanged). -/
theorem C3_counterexample :
    (pyIndex sC3.flatItems sC3.selected).map Row.isDir = some false ∧
    dispatch fsC8 Key.enter sC3 ≠ some sC3 ∧
    (dispatch fsC8 Key.enter sC3).map NavState.selected = some 0 ∧
    sC3.selected = 3 := by decide

/-- Witness for C3 (amended) at the concrete state `sC3`. -/
theorem C3_witness :
    dispatch fsC8 Key.enter sC3 = some { sC3 with selected := 0, offset := 0 } :=
  C3_amended fsC8 sC3 ⟨"├─ 📄 a.txt", ["r", "a.txt"], false, 0⟩
    rfl (by decide) rfl (by decide)

/-! ## C2 — bounds invariant of the navigation state -/

/-- The invariant claimed for every reachable `NavState` (spec §3):
`0 ≤ selectedIndex ≤ max(0, len(flattened)-1)`, `scrollOffset ≥ 0`, and
`scrollOffset ≤ selectedIndex < scrollOffset + pageSize`. -/
def boundsInvariant (pageSize : Int) (s : NavState) : Prop :=
  0 ≤ s.selected ∧ s.selected ≤ max 0 ((s.flatItems.length : Int) - 1) ∧
  0 ≤ s.offset ∧ s.offset ≤ s.selected ∧ s.selected < s.offset + pageSize

theorem clampStep_bounds (pageSize : Int) (s : NavState)
    (hsel : 0 ≤ s.selected) (hoff : 0 ≤ s.offset)
    (hne : s.flatItems ≠ []) (hps : 1 ≤ pageSize) :
    boundsInvariant pageSize (clampStep pageSize s) := by
  have hlen : 0 < s.flatItems.length := List.length_pos.mpr hne
  have hlen2 : (1 : Int) ≤ (s.flatItems.length : Int) := by exact_mod_cast hlen
  unfold boundsInvariant clampStep
  dsimp only
  have hmax : max 0 ((s.flatItems.length : Int) - 1) = (s.flatItems.length : Int) - 1 :=
    max_eq_right (by omega)
  rw [hmax]
  split_ifs <;> omega

theorem dispatch_nonneg (fs : FS) (k : Key) (c s2 : NavState)
    (hsel : 0 ≤ c.selected) (hoff : 0 ≤ c.offset)
    (hstep : dispatch fs k c = some s2) :
    0 ≤ s2.selected ∧ 0 ≤ s2.offset := by
  cases k with
  | up =>
    simp only [dispatch, Option.some.injEq] at hstep
    split at hstep
    · next h =>
      rw [← hstep]
      exact ⟨show (0 : Int) ≤ c.selected - 1 by omega, hoff⟩
    · rw [← hstep]
      exact ⟨hsel, hoff⟩
  | down =>
    simp only [dispatch, Option.some.injEq] at hstep
    split at hstep
    · rw [← hstep]
      exact ⟨show (0 : Int) ≤ c.selected + 1 by omega, hoff⟩
    · rw [← hstep]
      exact ⟨hsel, hoff⟩
  | right =>
    simp only [dispatch] at hstep
    rcases hpi : pyIndex c.flatItems c.selected with - | row <;> rw [hpi] at hstep
    · exact absurd hstep (by simp)
    · simp only [Option.some.injEq] at hstep
      split at hstep <;> rw [← hstep] <;> exact ⟨hsel, hoff⟩
  | left =>
    simp only [dispatch] at hstep
    rcases hpi : pyIndex c.flatItems c.selected with - | row <;> rw [hpi] at hstep
    · exact absurd hstep (by simp)
    · simp only [Option.some.injEq] at hstep
      split at hstep <;> rw [← hstep] <;> exact ⟨hsel, hoff⟩
  | enter =>
    simp only [dispatch] at hstep
    rcases hpi : pyIndex c.flatItems c.selected with - | row <;> rw [hpi] at hstep
    · exact absurd hstep (by simp)
    · dsimp only at hstep
      split_ifs at hstep <;> simp only [Option.some.injEq] at hstep <;> rw [← hstep] <;>
        exact ⟨le_refl 0, le_refl 0⟩
  | quit =>
    simp only [dispatch, Option.some.injEq] at hstep
    rw [← hstep]
    exact ⟨hsel, hoff⟩
  | other =>
    simp only [dispatch, Option.some.injEq] at hstep
    rw [← hstep]
    exact ⟨hsel, hoff⟩

/-- C2 (amended): the bounds invariant holds at every render point — i.e.
after the clamp at the top of the loop — provided the flattened sequence is
nonempty and the page size is at least 1, and the properties
`selected ≥ 0`, `offset ≥ 0` it relies on are (re-)established by the
initial state and by every successful key dispatch, closing the induction
over a run.  (When the flattened sequence is empty the clamp instead drives
both `selected` and `offset` to `-1`, see the counterexample.) -/
theorem C2_amended (fs : FS) (start : List String) (s : NavState)
    (pageSize : Int) (k : Key) (s2 : NavState)
    (hsel : 0 ≤ s.selected) (hoff : 0 ≤ s.offset)
    (hne : s.flatItems ≠ []) (hps : 1 ≤ pageSize)
    (hstep : dispatch fs k (clampStep pageSize s) = some s2) :
    (0 ≤ (initState fs start).selected ∧ 0 ≤ (initState fs start).offset) ∧
    boundsInvariant pageSize (clampStep pageSize s) ∧
    (0 ≤ s2.selected ∧ 0 ≤ s2.offset) := by
  have hinv := clampStep_bounds pageSize s hsel hoff hne hps
  refine ⟨⟨le_refl 0, le_refl 0⟩, hinv, ?_⟩
  exact dispatch_nonneg fs k (clampStep pageSize s) s2 hinv.1 hinv.2.2.1 hstep

/-- C2 (counterexample): start the program at the filesystem root `[]` of
`fsEmptyRoot`, whose listing is empty — the flattened sequence is empty,
and after one full loop iteration (clamp with `page_size = 12 - 2`, then an
Up key) the state has `selected = -1` and `offset = -1`, violating
`0 ≤ selectedIndex` and `scrollOffset ≥ 0`. -/
theorem C2_counterexample :
    (initState fsEmptyRoot []).flatItems = [] ∧
    (runStep fsEmptyRoot (initState fsEmptyRoot []) (12, Key.up)).map NavState.selected =
      some (-1) ∧
    (runStep fsEmptyRoot (initState fsEmptyRoot []) (12, Key.up)).map NavState.offset =
      some (-1) := by decide

/-- Witness for C2 (amended) at a concrete state with a nonempty flattened
sequence. -/
theorem C2_witness :
    (0 ≤ (initState fsC8 ["r"]).selected ∧ 0 ≤ (initState fsC8 ["r"]).offset) ∧
    boundsInvariant 5 (clampStep 5 (initState fsC8 ["r"])) ∧
    (0 ≤ (clampStep 5 (initState fsC8 ["r"])).selected ∧
      0 ≤ (clampStep 5 (initState fsC8 ["r"])).offset) :=
  C2_amended fsC8 ["r"] (initState fsC8 ["r"]) 5 Key.up (clampStep 5 (initState fsC8 ["r"]))
    (by decide) (by decide) (by decide) (by decide) (by decide)

/-! ## C9 — command-line surface -/

/-- C9 (counterexample): the script never consults `sys.argv` —
`src/ws.py` line 179 passes `os.getcwd()` unconditionally — so a start
path supplied on the command line is ignored: with working directory
`/home/user` and argument `/tmp`, the program starts at `/home/user`, not
`/tmp`. -/
theorem C9_counterexample :
    program_start_path ["home", "user"] ["ws.py", "/tmp"] = ["home", "user"] ∧
    program_start_path ["home", "user"] ["ws.py", "/tmp"] ≠ ["tmp"] := by decide

/-- C9 (amended): the program accepts no start-path argument at all — it
always starts at the current working directory, whatever the command line
holds — and a normal quit (the `q`/ESC branch breaking the loop) terminates
the run cleanly with exit code 0. -/
theorem C9_amended :
    (∀ cwd argv : List String, program_start_path cwd argv = cwd) ∧
    (∀ (fs : FS) (s : NavState),
      dispatch fs Key.quit s = some s ∧ exitCodeOfRun (dispatch fs Key.quit s) = 0) :=
  ⟨fun _ _ => rfl, fun _ _ => ⟨rfl, rfl⟩⟩
